import Mathlib

/-!
Verification of the order-fulfillment / ledger core of the Visio Dashboard
ERP application (`app.py`).

Shallow embedding conventions:
* Monetary values (`Product.price`, `Order.total_amount`, `Transaction.amount`,
  `OrderItem.unit_price`) are Python floats in the source; they are modelled as
  exact rationals (`Rat`).  The display-only `round(x, 2)` calls of the
  aggregate functions are omitted for the same reason.
* Python `datetime.date` values are modelled by a `Date` structure carrying
  year / month / day in the proleptic Gregorian calendar; `date ± timedelta(n)`
  is modelled by `n`-fold application of a successor / predecessor function,
  and date comparison is the lexicographic order, exactly as in Python.
  `Order.created_at` is a datetime in the source, but every comparison the core
  performs on it (`func.date(...) ==`, `>= month_start`, `< next_month`) is at
  day granularity, so it is modelled as the `Date` of its calendar day.
* The SQLAlchemy tables are modelled as lists of records inside a `DB`
  structure; `db.session` mutation becomes explicit state passing.
* Surrogate ids that the core never reads (`OrderItem.id`, `Transaction.id`)
  are omitted; ids that are read (`Product.id`, `Order.id`) are fields, and
  freshly generated values (`order.id` from `flush()`, `order_number`) are
  parameters of the operations.
-/

/-! ## Calendar model (Python `datetime.date`) -/

structure Date where
  year : Int
  month : Int
  day : Int
deriving DecidableEq

def isLeap (y : Int) : Bool :=
  y % 4 == 0 && (y % 100 != 0 || y % 400 == 0)

def monthLen (y m : Int) : Int :=
  if m == 2 then (if isLeap y then 29 else 28)
  else if m == 4 || m == 6 || m == 9 || m == 11 then 30
  else 31

def Date.Valid (d : Date) : Prop :=
  1 ≤ d.month ∧ d.month ≤ 12 ∧ 1 ≤ d.day ∧ d.day ≤ monthLen d.year d.month

instance instDecidableDateValid (d : Date) : Decidable d.Valid := by
  unfold Date.Valid
  infer_instance

def succDay (d : Date) : Date :=
  if d.day < monthLen d.year d.month then ⟨d.year, d.month, d.day + 1⟩
  else if d.month < 12 then ⟨d.year, d.month + 1, 1⟩
  else ⟨d.year + 1, 1, 1⟩

def predDay (d : Date) : Date :=
  if 1 < d.day then ⟨d.year, d.month, d.day - 1⟩
  else if 1 < d.month then ⟨d.year, d.month - 1, monthLen d.year (d.month - 1)⟩
  else ⟨d.year - 1, 12, 31⟩

def addDays : Nat → Date → Date
  | 0, d => d
  | n + 1, d => succDay (addDays n d)

def subDays : Nat → Date → Date
  | 0, d => d
  | n + 1, d => predDay (subDays n d)

def dateLe (a b : Date) : Bool :=
  a.year < b.year ||
    (a.year == b.year &&
      (a.month < b.month || (a.month == b.month && a.day ≤ b.day)))

def dateLt (a b : Date) : Bool :=
  a.year < b.year ||
    (a.year == b.year &&
      (a.month < b.month || (a.month == b.month && a.day < b.day)))

def firstOfMonth (d : Date) : Date := ⟨d.year, d.month, 1⟩

def sameMonth (a b : Date) : Bool :=
  a.year == b.year && a.month == b.month

theorem monthLen_lb (y m : Int) : 28 ≤ monthLen y m := by
  unfold monthLen
  split
  · split <;> omega
  · split <;> omega

theorem monthLen_ub (y m : Int) : monthLen y m ≤ 31 := by
  unfold monthLen
  split
  · split <;> omega
  · split <;> omega

theorem succDay_valid (d : Date) (h : d.Valid) : (succDay d).Valid := by
  obtain ⟨h1, h2, h3, h4⟩ := h
  have lb1 := monthLen_lb d.year (d.month + 1)
  have lb2 := monthLen_lb (d.year + 1) 1
  unfold succDay Date.Valid
  split
  · dsimp only
    omega
  · split
    · dsimp only
      omega
    · dsimp only
      omega

theorem predDay_valid (d : Date) (h : d.Valid) : (predDay d).Valid := by
  obtain ⟨h1, h2, h3, h4⟩ := h
  have lb1 := monthLen_lb d.year (d.month - 1)
  have h31 : monthLen (d.year - 1) 12 = 31 := by simp [monthLen]
  unfold predDay Date.Valid
  split
  · dsimp only
    omega
  · split
    · dsimp only
      omega
    · dsimp only
      omega

theorem addDays_valid (n : Nat) (d : Date) (h : d.Valid) : (addDays n d).Valid := by
  induction n with
  | zero => exact h
  | succ n ih => exact succDay_valid _ ih

theorem subDays_valid (n : Nat) (d : Date) (h : d.Valid) : (subDays n d).Valid := by
  induction n with
  | zero => exact h
  | succ n ih => exact predDay_valid _ ih

theorem predDay_lt (d : Date) (h : d.Valid) : dateLt (predDay d) d = true := by
  obtain ⟨h1, h2, h3, h4⟩ := h
  unfold predDay dateLt
  split
  · dsimp only
    simp only [Bool.or_eq_true, Bool.and_eq_true, decide_eq_true_eq, beq_iff_eq, true_and]
    omega
  · split
    · dsimp only
      simp only [Bool.or_eq_true, Bool.and_eq_true, decide_eq_true_eq, beq_iff_eq, true_and]
      omega
    · dsimp only
      simp only [Bool.or_eq_true, Bool.and_eq_true, decide_eq_true_eq, beq_iff_eq, true_and]
      omega

theorem dateLt_trans (a b c : Date) (h1 : dateLt a b = true) (h2 : dateLt b c = true) :
    dateLt a c = true := by
  unfold dateLt at *
  simp only [Bool.or_eq_true, Bool.and_eq_true, decide_eq_true_eq, beq_iff_eq, true_and] at *
  omega

theorem subDays_lt_of_lt (d : Date) (h : d.Valid) (a b : Nat) (hab : a < b) :
    dateLt (subDays b d) (subDays a d) = true := by
  induction b with
  | zero => omega
  | succ b ih =>
    have hs : subDays (b + 1) d = predDay (subDays b d) := rfl
    rcases Nat.lt_succ_iff_lt_or_eq.mp hab with h' | h'
    · exact dateLt_trans _ _ _ (hs ▸ predDay_lt _ (subDays_valid b d h)) (ih h')
    · subst h'
      exact hs ▸ predDay_lt _ (subDays_valid a d h)

theorem addDays_add (a b : Nat) (d : Date) : addDays (a + b) d = addDays a (addDays b d) := by
  induction a with
  | zero => simp [addDays]
  | succ a ih =>
    have hre : a + 1 + b = (a + b) + 1 := by omega
    rw [hre]
    show succDay (addDays (a + b) d) = addDays (a + 1) (addDays b d)
    rw [ih]
    rfl

theorem addDays_inMonth (y m : Int) : ∀ (k : Nat) (dd : Int), 1 ≤ dd →
    dd + k ≤ monthLen y m → addDays k ⟨y, m, dd⟩ = ⟨y, m, dd + k⟩ := by
  intro k
  induction k with
  | zero => intro dd _ _; simp [addDays]
  | succ k ih =>
    intro dd h1 h2
    show succDay (addDays k ⟨y, m, dd⟩) = _
    rw [ih dd h1 (by push_cast at h2 ⊢; omega)]
    unfold succDay
    rw [if_pos (by dsimp only; push_cast at h2 ⊢; omega)]
    dsimp only
    congr 1
    push_cast
    ring

theorem addDays32_first (y m : Int) (h1 : 1 ≤ m) (h2 : m ≤ 12) :
    firstOfMonth (addDays 32 ⟨y, m, 1⟩) =
      if m < 12 then (⟨y, m + 1, 1⟩ : Date) else ⟨y + 1, 1, 1⟩ := by
  have hlb := monthLen_lb y m
  have hub := monthLen_ub y m
  set L : Nat := (monthLen y m).toNat with hL
  have hLcast : (L : Int) = monthLen y m := Int.toNat_of_nonneg (by omega)
  have h32 : (32 : Nat) = (32 - L) + L := by omega
  have hfull : addDays L ⟨y, m, 1⟩ = if m < 12 then (⟨y, m + 1, 1⟩ : Date) else ⟨y + 1, 1, 1⟩ := by
    have hL1 : L = (L - 1) + 1 := by omega
    rw [hL1, addDays]
    rw [addDays_inMonth y m (L - 1) 1 (by omega) (by push_cast; omega)]
    unfold succDay
    rw [if_neg (by dsimp only; push_cast; omega)]
  rw [h32, addDays_add, hfull]
  by_cases hm : m < 12
  · rw [if_pos hm]
    rw [addDays_inMonth y (m + 1) (32 - L) 1 (by omega)
      (by have := monthLen_lb y (m + 1); push_cast; omega)]
    rfl
  · rw [if_neg hm]
    rw [addDays_inMonth (y + 1) 1 (32 - L) 1 (by omega)
      (by have := monthLen_lb (y + 1) 1; push_cast; omega)]
    rfl

theorem month_window (y m : Int) (h1 : 1 ≤ m) (h2 : m ≤ 12) (t : Date) (ht : t.Valid) :
    (dateLe ⟨y, m, 1⟩ t && dateLt t (firstOfMonth (addDays 32 ⟨y, m, 1⟩))) =
      (t.year == y && t.month == m) := by
  obtain ⟨hv1, hv2, hv3, hv4⟩ := ht
  rw [addDays32_first y m h1 h2]
  apply Bool.eq_iff_iff.mpr
  by_cases hm : m < 12
  · rw [if_pos hm]
    unfold dateLe dateLt
    dsimp only
    simp only [Bool.and_eq_true, Bool.or_eq_true, decide_eq_true_eq, beq_iff_eq, true_and]
    omega
  · rw [if_neg hm]
    unfold dateLe dateLt
    dsimp only
    simp only [Bool.and_eq_true, Bool.or_eq_true, decide_eq_true_eq, beq_iff_eq, true_and]
    omega

theorem today_window (today : Date) (htoday : today.Valid) (t : Date) (ht : t.Valid) :
    (dateLe (firstOfMonth today) t && dateLt t (addDays 1 today)) =
      (t.year == today.year && t.month == today.month && dateLe t today) := by
  obtain ⟨hv1, hv2, hv3, hv4⟩ := ht
  obtain ⟨hw1, hw2, hw3, hw4⟩ := htoday
  have ha : addDays 1 today = succDay today := rfl
  rw [ha]
  apply Bool.eq_iff_iff.mpr
  unfold succDay firstOfMonth dateLe dateLt
  split
  · dsimp only
    simp only [Bool.and_eq_true, Bool.or_eq_true, decide_eq_true_eq, beq_iff_eq, true_and]
    omega
  · split
    · dsimp only
      simp only [Bool.and_eq_true, Bool.or_eq_true, decide_eq_true_eq, beq_iff_eq, true_and]
      by_cases hsame : t.year = today.year ∧ t.month = today.month
      · have hml : monthLen t.year t.month = monthLen today.year today.month := by
          rw [hsame.1, hsame.2]
        omega
      · omega
    · dsimp only
      simp only [Bool.and_eq_true, Bool.or_eq_true, decide_eq_true_eq, beq_iff_eq, true_and]
      by_cases hsame : t.year = today.year ∧ t.month = today.month
      · have hml : monthLen t.year t.month = monthLen today.year today.month := by
          rw [hsame.1, hsame.2]
        omega
      · omega

/-! ## Data model (`app.py`, DATABASE MODELS section) -/

/-- `Product` table (`app.py:83`).  `price`/`cost` are floats in the source,
modelled as `Rat`; nullable text columns are `Option String`. -/
structure Product where
  id : Nat
  name : String
  sku : String
  category : Option String
  price : Rat
  cost : Rat
  stock_quantity : Int
  min_stock_level : Int
  description : Option String
deriving DecidableEq

/-- `Order` table (`app.py:99`); `created_at` is kept at calendar-day
granularity (see the header comment). -/
structure Order where
  id : Nat
  order_number : String
  customer_id : Nat
  status : String
  total_amount : Rat
  created_date : Date
  created_by : Nat
deriving DecidableEq

/-- `OrderItem` table (`app.py:110`). -/
structure OrderItem where
  order_id : Nat
  product_id : Nat
  quantity : Int
  unit_price : Rat
deriving DecidableEq

/-- `Transaction` ledger table (`app.py:142`). -/
structure Txn where
  transaction_type : String
  category : Option String
  amount : Rat
  description : Option String
  reference : Option String
  date : Date
  created_by : Nat
deriving DecidableEq

/-- The relational store: the four tables the order/ledger core touches. -/
structure DB where
  products : List Product
  orders : List Order
  order_items : List OrderItem
  transactions : List Txn
deriving DecidableEq

/-! ## Order Engine and Lifecycle Manager operations -/

/-- `Product.query.get(pid)` — primary-key lookup. -/
def getProduct (ps : List Product) (pid : Nat) : Option Product :=
  ps.find? (fun p => p.id == pid)

/-- In-place mutation `product.stock_quantity = v` of the row with id `pid`. -/
def updateProductStock (ps : List Product) (pid : Nat) (v : Int) : List Product :=
  ps.map (fun p => if p.id == pid then { p with stock_quantity := v } else p)

/-- The line-item loop of `add_order` (`app.py:497`–`503`): for each submitted
`(product_id, quantity)` pair, look the product up; if found, materialize an
`OrderItem` with the snapshotted `unit_price`, accumulate
`total += product.price * qty`, and floor-decrement the stock.  Returns the
updated product table, the materialized items in submission order, and the
accumulated total. -/
def processItems (oid : Nat) : List Product → List (Nat × Int) →
    List Product × List OrderItem × Rat
  | ps, [] => (ps, [], 0)
  | ps, (pid, qty) :: rest =>
    match getProduct ps pid with
    | none => processItems oid ps rest
    | some product =>
      let res := processItems oid
        (updateProductStock ps product.id (max 0 (product.stock_quantity - qty))) rest
      (res.1, ⟨oid, product.id, qty, product.price⟩ :: res.2.1,
        product.price * (qty : Rat) + res.2.2)

/-- `add_order` POST handler (`app.py:489`–`508`).  `oid` is the id assigned by
`db.session.flush()`, `onum` the generated order number, `uid` the current
user's id, `today` the creation date; `line_items` are the parsed non-empty
`(product_id, quantity)` form pairs. -/
def add_order (db : DB) (oid : Nat) (onum : String) (cid : Nat) (uid : Nat)
    (today : Date) (line_items : List (Nat × Int)) : DB :=
  match processItems oid db.products line_items with
  | (ps, its, total) =>
    { products := ps,
      orders := db.orders ++ [⟨oid, onum, cid, "pending", total, today, uid⟩],
      order_items := db.order_items ++ its,
      transactions := db.transactions ++
        [⟨"income", some "Sales", total, some ("Order " ++ onum), some onum, today, uid⟩] }

/-- `adjust_stock` handler (`app.py:475`–`482`): `get_or_404` then
`stock_quantity = max(0, stock_quantity + adjustment)`; a missing product
aborts with 404 before any mutation (modelled as the unchanged store). -/
def adjust_stock (db : DB) (pid : Nat) (adjustment : Int) : DB :=
  match getProduct db.products pid with
  | none => db
  | some product =>
    { db with products :=
        updateProductStock db.products product.id (max 0 (product.stock_quantity + adjustment)) }

/-- `update_order_status` handler (`app.py:516`–`525`): `get_or_404`, then the
status is overwritten only when it is one of the five enumerated values;
otherwise the request falls through to the redirect with no change. -/
def update_order_status (db : DB) (oid : Nat) (new_status : String) : DB :=
  match db.orders.find? (fun o => o.id == oid) with
  | none => db
  | some _ =>
    if ["pending", "confirmed", "shipped", "delivered", "cancelled"].contains new_status then
      { db with orders :=
          db.orders.map (fun o => if o.id == oid then { o with status := new_status } else o) }
    else db

/-- `delete_order` handler (`app.py:527`–`533`): deletes the order; the
`cascade='all, delete-orphan'` relationship deletes its `OrderItem` rows. -/
def delete_order (db : DB) (oid : Nat) : DB :=
  match db.orders.find? (fun o => o.id == oid) with
  | none => db
  | some _ =>
    { db with
        orders := db.orders.filter (fun o => !(o.id == oid)),
        order_items := db.order_items.filter (fun it => !(it.order_id == oid)) }

/-- An operation of the kind quantified over by the stock invariant: an
order creation or a manual stock adjustment. -/
inductive Op where
  | createOrder (oid : Nat) (onum : String) (cid : Nat) (uid : Nat) (today : Date)
      (line_items : List (Nat × Int)) : Op
  | adjustStock (pid : Nat) (delta : Int) : Op
deriving DecidableEq

def applyOp (db : DB) : Op → DB
  | .createOrder oid onum cid uid today line_items => add_order db oid onum cid uid today line_items
  | .adjustStock pid delta => adjust_stock db pid delta

def applyOps (db : DB) (ops : List Op) : DB := ops.foldl applyOp db

/-! ## Aggregation Engine -/

/-- Sum of `total_amount` over a list of orders (`func.sum(Order.total_amount)`,
with `scalar() or 0` yielding 0 on the empty set). -/
def sumTotals (orders : List Order) : Rat :=
  (orders.map (fun o => o.total_amount)).sum

/-- `get_sales_chart_data` (`app.py:191`–`197`): for `i = 6 .. 0`, the entry for
`today - i` days summing `total_amount` of non-cancelled orders created that
calendar day.  The source renders the date as `strftime('%b %d')` and rounds
for display; the entry here carries the date itself and the exact sum. -/
def get_sales_chart_data (db : DB) (today : Date) : List (Date × Rat) :=
  (List.range 7).map (fun j =>
    let d := subDays (6 - j) today
    (d, sumTotals (db.orders.filter
      (fun o => o.created_date == d && o.status != "cancelled"))))

/-- Total quantity sold of a product: `sum(OrderItem.quantity)` over all its
order items, with no filter on the parent order's status. -/
def totalSold (db : DB) (pid : Nat) : Int :=
  ((db.order_items.filter (fun it => it.product_id == pid)).map (fun it => it.quantity)).sum

/-- `get_top_products` (`app.py:204`–`206`): inner-join of products with their
order items, grouped by product id, ordered by total quantity sold descending,
limited to 5.  The SQL row order on ties is modelled as the stable sort of the
table rows in id order. -/
def get_top_products (db : DB) : List (String × Int) :=
  let rows := (db.products.filter
      (fun p => db.order_items.any (fun it => it.product_id == p.id))).map
    (fun p => (p.name, totalSold db p.id))
  (rows.mergeSort (fun a b => b.2 ≤ a.2)).take 5

/-- One month bucket of `get_monthly_revenue`: sum of `total_amount` of
non-cancelled orders with `month_start <= created_at < next_month`. -/
def monthWindowSum (db : DB) (month_start next_month : Date) : Rat :=
  sumTotals (db.orders.filter
    (fun o => dateLe month_start o.created_date && dateLt o.created_date next_month
      && o.status != "cancelled"))

/-- `get_monthly_revenue` (`app.py:214`–`222`): for `i = 5 .. 0`, step back
`i * 30` days, take that date's month start, and sum non-cancelled order totals
in `[month_start, next_month)` where `next_month` is
`(month_start + 32 days).replace(day=1)` for `i > 0` and tomorrow for `i = 0`.
The source labels the bucket `month_start.strftime('%b')`; the bucket here
carries `month_start` itself. -/
def get_monthly_revenue (db : DB) (today : Date) : List (Date × Rat) :=
  (List.range 6).map (fun j =>
    let i := 5 - j
    let date := subDays (i * 30) today
    let month_start := firstOfMonth date
    let next_month := if 0 < i then firstOfMonth (addDays 32 month_start) else addDays 1 today
    (month_start, monthWindowSum db month_start next_month))

/-- Revenue of a calendar month as the Aggregation Engine section of the spec
describes it: sum of `total_amount` of the non-cancelled orders created in the
calendar month containing `x`. -/
def monthRevenueOfMonth (db : DB) (x : Date) : Rat :=
  sumTotals (db.orders.filter
    (fun o => o.created_date.year == x.year && o.created_date.month == x.month
      && o.status != "cancelled"))

/-- Revenue of the current month up to and including `today`. -/
def monthRevenueToDate (db : DB) (today : Date) : Rat :=
  sumTotals (db.orders.filter
    (fun o => o.created_date.year == today.year && o.created_date.month == today.month
      && dateLe o.created_date today && o.status != "cancelled"))

/-! ## Concrete stores used to instantiate the theorems -/

/-- The empty store. -/
def emptyDB : DB := ⟨[], [], [], []⟩

def prodA : Product := ⟨1, "Laptop Pro 15", "LP-001", some "Electronics", 10, 6, 5, 2, none⟩

def prodB : Product := ⟨2, "Wireless Mouse", "WM-002", some "Accessories", 5, 2, 7, 3, none⟩

def ordP : Order := ⟨1, "ORD-20250610-1234", 1, "pending", 100, ⟨2025, 6, 10⟩, 1⟩

/-- A store with two products, one pending order with one item, and the
order's posted income transaction. -/
def dbOrd : DB :=
  ⟨[prodA, prodB], [ordP], [⟨1, 1, 10, 10⟩],
    [⟨"income", some "Sales", 100, some "Order ORD-20250610-1234",
      some "ORD-20250610-1234", ⟨2025, 6, 10⟩, 1⟩]⟩

/-- A store with a single non-cancelled order created 2024-10-15 of amount
100, used against the monthly-revenue aggregate as of 2025-03-31. -/
def dbC7 : DB :=
  ⟨[], [⟨1, "ORD-20241015-4242", 1, "pending", 100, ⟨2024, 10, 15⟩, 1⟩], [], []⟩

/-- A concrete operation sequence: an order that overdraws product 1's stock,
then a large negative manual adjustment of product 2. -/
def opsW : List Op :=
  [.createOrder 2 "ORD-20250615-9999" 1 1 ⟨2025, 6, 15⟩ [(1, 100)],
   .adjustStock 2 (-100)]

/-! ## Helper lemmas about the operations -/

theorem updateProductStock_ids (ps : List Product) (pid : Nat) (v : Int) :
    (updateProductStock ps pid v).map (fun p => p.id) = ps.map (fun p => p.id) := by
  unfold updateProductStock
  rw [List.map_map]
  apply List.map_congr_left
  intro p _
  dsimp only [Function.comp]
  split <;> rfl

theorem getProduct_update_ne (ps : List Product) (qid pid : Nat) (v : Int) (h : qid ≠ pid) :
    getProduct (updateProductStock ps qid v) pid = getProduct ps pid := by
  unfold getProduct updateProductStock
  rw [List.find?_map]
  have hfun : ((fun q : Product => q.id == pid) ∘
      (fun p : Product => if p.id == qid then { p with stock_quantity := v } else p)) =
      fun p : Product => p.id == pid := by
    funext p
    dsimp only [Function.comp]
    split <;> rfl
  rw [hfun]
  cases hfind : ps.find? (fun p => p.id == pid) with
  | none => rfl
  | some q =>
    have hq : q.id = pid := by
      have := List.find?_some hfind
      simpa using this
    simp only [Option.map_some']
    rw [if_neg (by simp only [beq_iff_eq, hq]; omega)]

theorem getProduct_update_eq (ps : List Product) (pid : Nat) (v : Int) :
    getProduct (updateProductStock ps pid v) pid =
      (getProduct ps pid).map (fun q => { q with stock_quantity := v }) := by
  unfold getProduct updateProductStock
  rw [List.find?_map]
  have hfun : ((fun q : Product => q.id == pid) ∘
      (fun p : Product => if p.id == pid then { p with stock_quantity := v } else p)) =
      fun p : Product => p.id == pid := by
    funext p
    dsimp only [Function.comp]
    split <;> rfl
  rw [hfun]
  cases hfind : ps.find? (fun p => p.id == pid) with
  | none => rfl
  | some q =>
    have hq : q.id = pid := by
      have := List.find?_some hfind
      simpa using this
    simp only [Option.map_some']
    rw [if_pos (by simp only [beq_iff_eq, hq])]

theorem getProduct_update_none (ps : List Product) (qid pid : Nat) (v : Int)
    (h : getProduct ps pid = none) :
    getProduct (updateProductStock ps qid v) pid = none := by
  by_cases hq : qid = pid
  · subst hq
    rw [getProduct_update_eq, h]
    rfl
  · rw [getProduct_update_ne ps qid pid v hq, h]

theorem find_id_of_nodup (ps : List Product) (p : Product)
    (hn : (ps.map (fun q => q.id)).Nodup) (hp : p ∈ ps) : getProduct ps p.id = some p := by
  induction ps with
  | nil => cases hp
  | cons a t ih =>
    have hn' : (∀ x ∈ t, ¬x.id = a.id) ∧ (t.map (fun q => q.id)).Nodup := by
      simpa using hn
    rcases List.mem_cons.mp hp with rfl | hm
    · unfold getProduct
      rw [List.find?_cons_of_pos _ (by simp)]
    · have hfalse : (a.id == p.id) = false := by
        simp only [beq_eq_false_iff_ne, ne_eq]
        intro he
        exact hn'.1 p hm (by rw [he])
      unfold getProduct
      rw [List.find?_cons, hfalse]
      exact ih hn'.2 hm

theorem processItems_products_ids (oid : Nat) : ∀ (items : List (Nat × Int)) (ps : List Product),
    ((processItems oid ps items).1).map (fun p => p.id) = ps.map (fun p => p.id) := by
  intro items
  induction items with
  | nil => intro ps; rfl
  | cons pr rest ih =>
    intro ps
    obtain ⟨pid, qty⟩ := pr
    unfold processItems
    cases hfind : getProduct ps pid with
    | none => exact ih ps
    | some product =>
      dsimp only
      rw [ih, updateProductStock_ids]

theorem processItems_total (oid : Nat) : ∀ (items : List (Nat × Int)) (ps : List Product),
    (processItems oid ps items).2.2 =
      (((processItems oid ps items).2.1).map
        (fun it => (it.quantity : Rat) * it.unit_price)).sum := by
  intro items
  induction items with
  | nil => intro ps; simp [processItems]
  | cons pr rest ih =>
    intro ps
    obtain ⟨pid, qty⟩ := pr
    unfold processItems
    cases hfind : getProduct ps pid with
    | none => exact ih ps
    | some product =>
      dsimp only
      rw [ih]
      simp [mul_comm]

theorem processItems_item_oid (oid : Nat) : ∀ (items : List (Nat × Int)) (ps : List Product)
    (it : OrderItem), it ∈ (processItems oid ps items).2.1 → it.order_id = oid := by
  intro items
  induction items with
  | nil => intro ps it h; simp [processItems] at h
  | cons pr rest ih =>
    intro ps it h
    obtain ⟨pid, qty⟩ := pr
    unfold processItems at h
    cases hfind : getProduct ps pid with
    | none =>
      rw [hfind] at h
      exact ih ps it h
    | some product =>
      rw [hfind] at h
      dsimp only at h
      rcases List.mem_cons.mp h with rfl | hm
      · rfl
      · exact ih _ it hm

theorem processItems_nonneg (oid : Nat) : ∀ (items : List (Nat × Int)) (ps : List Product),
    (∀ p ∈ ps, 0 ≤ p.stock_quantity) →
    ∀ p ∈ (processItems oid ps items).1, 0 ≤ p.stock_quantity := by
  intro items
  induction items with
  | nil => intro ps h p hp; exact h p hp
  | cons pr rest ih =>
    intro ps h p hp
    obtain ⟨pid, qty⟩ := pr
    unfold processItems at hp
    cases hfind : getProduct ps pid with
    | none =>
      rw [hfind] at hp
      exact ih ps h p hp
    | some product =>
      rw [hfind] at hp
      dsimp only at hp
      refine ih _ ?_ p hp
      intro q hq
      unfold updateProductStock at hq
      rcases List.mem_map.mp hq with ⟨r, hr, hrq⟩
      by_cases hid : (r.id == product.id) = true
      · rw [if_pos hid] at hrq
        rw [← hrq]
        exact le_max_left 0 _
      · rw [if_neg hid] at hrq
        rw [← hrq]
        exact h r hr

theorem processItems_getProduct_untouched (oid : Nat) : ∀ (items : List (Nat × Int))
    (ps : List Product) (pid : Nat), (∀ pr ∈ items, pr.1 ≠ pid) →
    getProduct (processItems oid ps items).1 pid = getProduct ps pid := by
  intro items
  induction items with
  | nil => intro ps pid _; rfl
  | cons pr rest ih =>
    intro ps pid h
    obtain ⟨qid, qty⟩ := pr
    have hq : qid ≠ pid := h (qid, qty) (List.mem_cons_self _ _)
    unfold processItems
    cases hfind : getProduct ps qid with
    | none => exact ih ps pid (fun x hx => h x (List.mem_cons_of_mem _ hx))
    | some product =>
      dsimp only
      rw [ih _ pid (fun x hx => h x (List.mem_cons_of_mem _ hx))]
      have hpid : product.id = qid := by
        have := List.find?_some hfind
        simpa using this
      rw [hpid]
      exact getProduct_update_ne ps qid pid _ hq

theorem processItems_products_append (oid : Nat) (ys : List (Nat × Int)) :
    ∀ (xs : List (Nat × Int)) (ps : List Product),
    (processItems oid ps (xs ++ ys)).1 = (processItems oid (processItems oid ps xs).1 ys).1 := by
  intro xs
  induction xs with
  | nil => intro ps; rfl
  | cons pr rest ih =>
    intro ps
    obtain ⟨pid, qty⟩ := pr
    cases hfind : getProduct ps pid with
    | none =>
      simp only [List.cons_append, processItems, hfind]
      exact ih ps
    | some product =>
      simp only [List.cons_append, processItems, hfind]
      exact ih _

theorem processItems_skip (oid : Nat) (pid : Nat) (qty : Int) (l2 : List (Nat × Int)) :
    ∀ (l1 : List (Nat × Int)) (ps : List Product), getProduct ps pid = none →
    processItems oid ps (l1 ++ (pid, qty) :: l2) = processItems oid ps (l1 ++ l2) := by
  intro l1
  induction l1 with
  | nil =>
    intro ps h
    simp only [List.nil_append, processItems, h]
  | cons pr rest ih =>
    intro ps h
    obtain ⟨qid, q⟩ := pr
    cases hfind : getProduct ps qid with
    | none =>
      simp only [List.cons_append, processItems, hfind]
      exact ih ps h
    | some product =>
      simp only [List.cons_append, processItems, hfind, List.append_eq]
      rw [ih _ (getProduct_update_none ps product.id pid _ h)]

/-! ## Claim theorems -/

/-- C1: for every order created through `add_order`, the order's
`total_amount` equals the sum over its materialized `OrderItem` rows of
`quantity * unit_price`, and exactly one income transaction is appended to the
ledger, with `reference` equal to the order's `order_number` and `amount`
equal to its `total_amount`. -/
theorem order_total_and_ledger (db : DB) (oid : Nat) (onum : String) (cid uid : Nat)
    (today : Date) (line_items : List (Nat × Int))
    (hfresh : ∀ it ∈ db.order_items, it.order_id ≠ oid) :
    ∃ ord : Order,
      (add_order db oid onum cid uid today line_items).orders = db.orders ++ [ord] ∧
      ord.order_number = onum ∧
      ord.total_amount =
        (((add_order db oid onum cid uid today line_items).order_items.filter
            (fun it => it.order_id == oid)).map
          (fun it => (it.quantity : Rat) * it.unit_price)).sum ∧
      (add_order db oid onum cid uid today line_items).transactions =
        db.transactions ++
          [⟨"income", some "Sales", ord.total_amount, some ("Order " ++ onum),
            some onum, today, uid⟩] := by
  refine ⟨⟨oid, onum, cid, "pending", (processItems oid db.products line_items).2.2,
    today, uid⟩, rfl, rfl, ?_, rfl⟩
  show (processItems oid db.products line_items).2.2 =
    (((db.order_items ++ (processItems oid db.products line_items).2.1).filter
      (fun it => it.order_id == oid)).map (fun it => (it.quantity : Rat) * it.unit_price)).sum
  rw [List.filter_append]
  have hold : db.order_items.filter (fun it => it.order_id == oid) = [] := by
    rw [List.filter_eq_nil_iff]
    intro it hit
    simpa using hfresh it hit
  have hnew : (processItems oid db.products line_items).2.1.filter
      (fun it => it.order_id == oid) = (processItems oid db.products line_items).2.1 := by
    rw [List.filter_eq_self]
    intro it hit
    simpa using processItems_item_oid oid line_items db.products it hit
  rw [hold, hnew, List.nil_append]
  exact processItems_total oid line_items db.products

/-- Witness for C1 at a concrete store and order. -/
theorem order_total_and_ledger_witness :
    (∀ it ∈ dbOrd.order_items, it.order_id ≠ 2) ∧
    (∃ ord : Order,
      (add_order dbOrd 2 "ORD-20250615-7777" 1 1 ⟨2025, 6, 15⟩ [(1, 3)]).orders =
        dbOrd.orders ++ [ord] ∧
      ord.order_number = "ORD-20250615-7777" ∧
      ord.total_amount =
        (((add_order dbOrd 2 "ORD-20250615-7777" 1 1 ⟨2025, 6, 15⟩ [(1, 3)]).order_items.filter
            (fun it => it.order_id == 2)).map
          (fun it => (it.quantity : Rat) * it.unit_price)).sum ∧
      (add_order dbOrd 2 "ORD-20250615-7777" 1 1 ⟨2025, 6, 15⟩ [(1, 3)]).transactions =
        dbOrd.transactions ++
          [⟨"income", some "Sales", ord.total_amount, some ("Order " ++ "ORD-20250615-7777"),
            some "ORD-20250615-7777", ⟨2025, 6, 15⟩, 1⟩]) :=
  ⟨by decide, order_total_and_ledger dbOrd 2 "ORD-20250615-7777" 1 1 ⟨2025, 6, 15⟩ [(1, 3)]
    (by decide)⟩

/-- C3 counterexample: calling `add_order` with an empty line-item list is NOT
rejected: starting from the empty store, an `Order` row and an income `Txn`
row are persisted. -/
theorem empty_order_counterexample :
    (add_order emptyDB 1 "ORD-20250101-1111" 1 1 ⟨2025, 1, 1⟩ []).orders.length = 1 ∧
    (add_order emptyDB 1 "ORD-20250101-1111" 1 1 ⟨2025, 1, 1⟩ []).transactions.length = 1 ∧
    emptyDB.orders.length = 0 ∧ emptyDB.transactions.length = 0 := by
  decide

/-- C3 amended: `add_order` with an empty line-item list succeeds with no
validation: it persists an `Order` with no `OrderItem` rows and
`total_amount = 0`, leaves products and existing order items unchanged, and
posts exactly one income transaction of amount 0 referencing the order. -/
theorem empty_order_amended (db : DB) (oid : Nat) (onum : String) (cid uid : Nat)
    (today : Date) :
    add_order db oid onum cid uid today [] =
      { db with
          orders := db.orders ++ [⟨oid, onum, cid, "pending", 0, today, uid⟩],
          transactions := db.transactions ++
            [⟨"income", some "Sales", 0, some ("Order " ++ onum), some onum, today, uid⟩] } := by
  simp [add_order, processItems]

/-- C6: cancelling an order (status update to `cancelled`) and deleting an
order both leave the product table and the ledger unchanged; deletion removes
exactly the order row and the order items belonging to it. -/
theorem cancel_delete_frame (db : DB) (oid : Nat)
    (hexists : (db.orders.find? (fun o => o.id == oid)).isSome) :
    (update_order_status db oid "cancelled").products = db.products ∧
    (update_order_status db oid "cancelled").transactions = db.transactions ∧
    (update_order_status db oid "cancelled").order_items = db.order_items ∧
    (delete_order db oid).products = db.products ∧
    (delete_order db oid).transactions = db.transactions ∧
    (delete_order db oid).orders = db.orders.filter (fun o => !(o.id == oid)) ∧
    (delete_order db oid).order_items = db.order_items.filter (fun it => !(it.order_id == oid)) := by
  obtain ⟨o, hfind⟩ := Option.isSome_iff_exists.mp hexists
  unfold update_order_status delete_order
  rw [hfind]
  rw [if_pos (by decide)]
  exact ⟨rfl, rfl, rfl, rfl, rfl, rfl, rfl⟩

/-- Witness for C6 at a concrete store holding one order. -/
theorem cancel_delete_frame_witness :
    ((dbOrd.orders.find? (fun o => o.id == 1)).isSome) ∧
    ((update_order_status dbOrd 1 "cancelled").products = dbOrd.products ∧
     (update_order_status dbOrd 1 "cancelled").transactions = dbOrd.transactions ∧
     (update_order_status dbOrd 1 "cancelled").order_items = dbOrd.order_items ∧
     (delete_order dbOrd 1).products = dbOrd.products ∧
     (delete_order dbOrd 1).transactions = dbOrd.transactions ∧
     (delete_order dbOrd 1).orders = dbOrd.orders.filter (fun o => !(o.id == 1)) ∧
     (delete_order dbOrd 1).order_items = dbOrd.order_items.filter (fun it => !(it.order_id == 1))) :=
  ⟨by decide, cancel_delete_frame dbOrd 1 (by decide)⟩

/-- C10: updating an existing order's status with a value outside the five
enumerated statuses leaves the whole store unchanged (and, in the source,
merely redirects without flashing an error). -/
theorem invalid_status_ignored (db : DB) (oid : Nat) (s : String)
    (hexists : (db.orders.find? (fun o => o.id == oid)).isSome)
    (hs : s ∉ ["pending", "confirmed", "shipped", "delivered", "cancelled"]) :
    update_order_status db oid s = db := by
  obtain ⟨o, hfind⟩ := Option.isSome_iff_exists.mp hexists
  unfold update_order_status
  rw [hfind]
  rw [if_neg (by intro hc; exact hs (List.elem_iff.mp hc))]

/-- Witness for C10 at a concrete store and an out-of-enumeration status. -/
theorem invalid_status_ignored_witness :
    ((dbOrd.orders.find? (fun o => o.id == 1)).isSome) ∧
    ("archived" ∉ ["pending", "confirmed", "shipped", "delivered", "cancelled"]) ∧
    update_order_status dbOrd 1 "archived" = dbOrd :=
  ⟨by decide, by decide, invalid_status_ignored dbOrd 1 "archived" (by decide) (by decide)⟩

/-- C2: starting from a store whose stock quantities are all non-negative,
every sequence of order-creation and stock-adjustment operations keeps every
product's `stock_quantity` non-negative. -/
theorem stock_never_negative (db : DB) (hinit : ∀ p ∈ db.products, 0 ≤ p.stock_quantity)
    (ops : List Op) : ∀ p ∈ (applyOps db ops).products, 0 ≤ p.stock_quantity := by
  induction ops generalizing db with
  | nil => exact hinit
  | cons op rest ih =>
    refine ih (applyOp db op) ?_
    cases op with
    | createOrder oid onum cid uid today items =>
      exact processItems_nonneg oid items db.products hinit
    | adjustStock pid delta =>
      show ∀ p ∈ (adjust_stock db pid delta).products, 0 ≤ p.stock_quantity
      intro p hp
      unfold adjust_stock at hp
      cases hfind : getProduct db.products pid with
      | none =>
        rw [hfind] at hp
        exact hinit p hp
      | some product =>
        rw [hfind] at hp
        dsimp only at hp
        unfold updateProductStock at hp
        rcases List.mem_map.mp hp with ⟨r, hr, hrq⟩
        by_cases hid : (r.id == product.id) = true
        · rw [if_pos hid] at hrq
          rw [← hrq]
          exact le_max_left 0 _
        · rw [if_neg hid] at hrq
          rw [← hrq]
          exact hinit r hr

/-- Witness for C2 at a concrete store and operation sequence. -/
theorem stock_never_negative_witness :
    (∀ p ∈ dbOrd.products, 0 ≤ p.stock_quantity) ∧
    (∀ p ∈ (applyOps dbOrd opsW).products, 0 ≤ p.stock_quantity) :=
  ⟨by decide, stock_never_negative dbOrd (by decide) opsW⟩

/-- C4: order creation is never rejected for insufficient stock (the order row
is always appended); a line item for product `p` updates its stock to
`max 0 (stock - quantity)`; and `adjust_stock` sets the stock to
`max 0 (stock + delta)` while posting no ledger transaction. -/
theorem stock_floor_semantics (db : DB) (oid : Nat) (onum : String) (cid uid : Nat)
    (today : Date) (l1 l2 : List (Nat × Int)) (p : Product) (qty delta : Int)
    (hnodup : (db.products.map (fun q => q.id)).Nodup)
    (hp : p ∈ db.products)
    (h1 : ∀ pr ∈ l1, pr.1 ≠ p.id) (h2 : ∀ pr ∈ l2, pr.1 ≠ p.id) :
    (add_order db oid onum cid uid today (l1 ++ (p.id, qty) :: l2)).orders.length =
      db.orders.length + 1 ∧
    { p with stock_quantity := max 0 (p.stock_quantity - qty) } ∈
      (add_order db oid onum cid uid today (l1 ++ (p.id, qty) :: l2)).products ∧
    (adjust_stock db p.id delta).products =
      updateProductStock db.products p.id (max 0 (p.stock_quantity + delta)) ∧
    (adjust_stock db p.id delta).transactions = db.transactions := by
  have hfind0 : getProduct db.products p.id = some p := find_id_of_nodup db.products p hnodup hp
  refine ⟨?_, ?_, ?_, ?_⟩
  · show (db.orders ++ [_]).length = db.orders.length + 1
    simp
  · show _ ∈ (processItems oid db.products (l1 ++ (p.id, qty) :: l2)).1
    rw [processItems_products_append oid ((p.id, qty) :: l2) l1 db.products]
    have hP1 : getProduct (processItems oid db.products l1).1 p.id = some p := by
      rw [processItems_getProduct_untouched oid l1 db.products p.id h1]
      exact hfind0
    have hstep : (processItems oid (processItems oid db.products l1).1 ((p.id, qty) :: l2)).1 =
        (processItems oid
          (updateProductStock (processItems oid db.products l1).1 p.id
            (max 0 (p.stock_quantity - qty))) l2).1 := by
      simp only [processItems, hP1]
    have huntouched : getProduct (processItems oid
        (updateProductStock (processItems oid db.products l1).1 p.id
          (max 0 (p.stock_quantity - qty))) l2).1 p.id =
        getProduct (updateProductStock (processItems oid db.products l1).1 p.id
          (max 0 (p.stock_quantity - qty))) p.id :=
      processItems_getProduct_untouched oid l2 _ p.id h2
    have hupd : getProduct (updateProductStock (processItems oid db.products l1).1 p.id
        (max 0 (p.stock_quantity - qty))) p.id =
        some { p with stock_quantity := max 0 (p.stock_quantity - qty) } := by
      rw [getProduct_update_eq, hP1]
      rfl
    rw [hstep]
    exact List.mem_of_find?_eq_some (huntouched.trans hupd)
  · unfold adjust_stock
    rw [hfind0]
  · unfold adjust_stock
    rw [hfind0]

/-- Witness for C4 at a concrete store, line items and adjustment. -/
theorem stock_floor_semantics_witness :
    ((dbOrd.products.map (fun q => q.id)).Nodup) ∧ (prodA ∈ dbOrd.products) ∧
    ((add_order dbOrd 2 "ORD-20250615-8888" 1 1 ⟨2025, 6, 15⟩ ([(2, 1)] ++ (prodA.id, 9) :: [])).orders.length =
      dbOrd.orders.length + 1 ∧
    { prodA with stock_quantity := max 0 (prodA.stock_quantity - 9) } ∈
      (add_order dbOrd 2 "ORD-20250615-8888" 1 1 ⟨2025, 6, 15⟩ ([(2, 1)] ++ (prodA.id, 9) :: [])).products ∧
    (adjust_stock dbOrd prodA.id (-7)).products =
      updateProductStock dbOrd.products prodA.id (max 0 (prodA.stock_quantity + (-7))) ∧
    (adjust_stock dbOrd prodA.id (-7)).transactions = dbOrd.transactions) :=
  ⟨by decide, by decide,
    stock_floor_semantics dbOrd 2 "ORD-20250615-8888" 1 1 ⟨2025, 6, 15⟩ [(2, 1)] [] prodA 9 (-7)
      (by decide) (by decide) (by decide) (by decide)⟩

/-- C5: a line item whose `product_id` matches no product is silently skipped:
creating the order with it gives exactly the same store as creating the order
without it (same materialized items, same total, same stock, same ledger), and
the call itself is not an error. -/
theorem missing_product_skipped (db : DB) (oid : Nat) (onum : String) (cid uid : Nat)
    (today : Date) (l1 l2 : List (Nat × Int)) (pid : Nat) (qty : Int)
    (hmiss : ∀ p ∈ db.products, p.id ≠ pid) :
    add_order db oid onum cid uid today (l1 ++ (pid, qty) :: l2) =
      add_order db oid onum cid uid today (l1 ++ l2) := by
  have hnone : getProduct db.products pid = none := by
    unfold getProduct
    rw [List.find?_eq_none]
    intro p hp
    simpa using hmiss p hp
  unfold add_order
  rw [processItems_skip oid pid qty l2 l1 db.products hnone]

/-- Witness for C5: a ghost product id 99 next to one valid item. -/
theorem missing_product_skipped_witness :
    (∀ p ∈ dbOrd.products, p.id ≠ 99) ∧
    (add_order dbOrd 2 "ORD-20250615-6666" 1 1 ⟨2025, 6, 15⟩ ([(1, 2)] ++ (99, 5) :: []) =
      add_order dbOrd 2 "ORD-20250615-6666" 1 1 ⟨2025, 6, 15⟩ ([(1, 2)] ++ [])) :=
  ⟨by decide,
    missing_product_skipped dbOrd 2 "ORD-20250615-6666" 1 1 ⟨2025, 6, 15⟩ [(1, 2)] [] 99 5
      (by decide)⟩

/-- C8: the daily sales series has exactly 7 entries, one per calendar day of
the trailing 7 days inclusive of today, in strictly chronological order; each
entry sums `total_amount` of the non-cancelled orders created that day, and a
day with no such orders yields 0. -/
theorem daily_sales_series (db : DB) (today : Date) (htoday : today.Valid) :
    (get_sales_chart_data db today).length = 7 ∧
    (get_sales_chart_data db today).map Prod.fst =
      [subDays 6 today, subDays 5 today, subDays 4 today, subDays 3 today,
        subDays 2 today, subDays 1 today, today] ∧
    List.Pairwise (fun a b => dateLt a b = true)
      ((get_sales_chart_data db today).map Prod.fst) ∧
    (∀ e ∈ get_sales_chart_data db today,
      e.2 = sumTotals (db.orders.filter
        (fun o => o.created_date == e.1 && o.status != "cancelled"))) ∧
    (∀ e ∈ get_sales_chart_data db today,
      (∀ o ∈ db.orders, o.created_date = e.1 → o.status = "cancelled") → e.2 = 0) := by
  have H : ∀ a b : Nat, a < b → dateLt (subDays b today) (subDays a today) = true :=
    fun a b hab => subDays_lt_of_lt today htoday a b hab
  have H0 : ∀ b : Nat, 0 < b → dateLt (subDays b today) today = true :=
    fun b hb => H 0 b hb
  have hmap : (get_sales_chart_data db today).map Prod.fst =
      [subDays 6 today, subDays 5 today, subDays 4 today, subDays 3 today,
        subDays 2 today, subDays 1 today, today] := rfl
  refine ⟨rfl, hmap, ?_, ?_, ?_⟩
  · rw [hmap]
    refine List.pairwise_iff_getElem.mpr ?_
    intro i j hi hj hij
    simp only [List.length_cons, List.length_nil] at hi hj
    interval_cases i <;> interval_cases j <;>
      simp only [List.getElem_cons_zero, List.getElem_cons_succ] <;>
      first
        | omega
        | exact H _ _ (by omega)
        | exact H0 _ (by omega)
  · intro e he
    rcases List.mem_map.mp (by exact he) with ⟨j, hj, rfl⟩
    rfl
  · intro e he hz
    rcases List.mem_map.mp (by exact he) with ⟨j, hj, rfl⟩
    show sumTotals (db.orders.filter _) = 0
    rw [show db.orders.filter
        (fun o => o.created_date == subDays (6 - j) today && o.status != "cancelled") = [] from ?_]
    · rfl
    · rw [List.filter_eq_nil_iff]
      intro o ho
      simp only [Bool.and_eq_true, beq_iff_eq, bne_iff_ne, ne_eq, not_and]
      intro hdate
      simpa using hz o ho hdate

/-- Witness for C8 at a concrete store and day. -/
theorem daily_sales_series_witness :
    (Date.Valid ⟨2025, 6, 15⟩) ∧
    ((get_sales_chart_data dbOrd ⟨2025, 6, 15⟩).length = 7 ∧
    (get_sales_chart_data dbOrd ⟨2025, 6, 15⟩).map Prod.fst =
      [subDays 6 ⟨2025, 6, 15⟩, subDays 5 ⟨2025, 6, 15⟩, subDays 4 ⟨2025, 6, 15⟩,
        subDays 3 ⟨2025, 6, 15⟩, subDays 2 ⟨2025, 6, 15⟩, subDays 1 ⟨2025, 6, 15⟩,
        ⟨2025, 6, 15⟩] ∧
    List.Pairwise (fun a b => dateLt a b = true)
      ((get_sales_chart_data dbOrd ⟨2025, 6, 15⟩).map Prod.fst) ∧
    (∀ e ∈ get_sales_chart_data dbOrd ⟨2025, 6, 15⟩,
      e.2 = sumTotals (dbOrd.orders.filter
        (fun o => o.created_date == e.1 && o.status != "cancelled"))) ∧
    (∀ e ∈ get_sales_chart_data dbOrd ⟨2025, 6, 15⟩,
      (∀ o ∈ dbOrd.orders, o.created_date = e.1 → o.status = "cancelled") → e.2 = 0)) :=
  ⟨by decide, daily_sales_series dbOrd ⟨2025, 6, 15⟩ (by decide)⟩

/-- C9: `get_top_products` returns at most 5 rows, sorted by descending total
quantity sold, and every row is a product of the catalog carrying its total
quantity sold over all order items — with no filter on order status, so
cancelled orders are included. -/
theorem top_products_spec (db : DB) :
    (get_top_products db).length ≤ 5 ∧
    List.Pairwise (fun a b : String × Int => b.2 ≤ a.2) (get_top_products db) ∧
    ∀ r ∈ get_top_products db, ∃ p ∈ db.products, r.1 = p.name ∧ r.2 = totalSold db p.id := by
  refine ⟨?_, ?_, ?_⟩
  · unfold get_top_products
    exact List.length_take_le 5 _
  · unfold get_top_products
    refine List.Pairwise.sublist (List.take_sublist 5 _) ?_
    have hs := @List.sorted_mergeSort (String × Int)
      (fun a b : String × Int => decide (b.2 ≤ a.2))
      (by intro a b c hab hbc; simp only [decide_eq_true_eq] at *; omega)
      (by intro a b; simp only [Bool.or_eq_true, decide_eq_true_eq]; omega)
      ((db.products.filter
        (fun p => db.order_items.any (fun it => it.product_id == p.id))).map
        (fun p => (p.name, totalSold db p.id)))
    exact hs.imp (by intro a b h; simpa using h)
  · intro r hr
    have h1 : r ∈ ((db.products.filter
        (fun p => db.order_items.any (fun it => it.product_id == p.id))).map
        (fun p => (p.name, totalSold db p.id))).mergeSort (fun a b => b.2 ≤ a.2) :=
      List.mem_of_mem_take hr
    have h2 := List.mem_mergeSort.mp h1
    rcases List.mem_map.mp h2 with ⟨p, hpf, rfl⟩
    exact ⟨p, (List.mem_filter.mp hpf).1, rfl, rfl⟩

/-- Witness for C9 at a concrete store. -/
theorem top_products_spec_witness :
    (get_top_products dbOrd).length ≤ 5 ∧
    List.Pairwise (fun a b : String × Int => b.2 ≤ a.2) (get_top_products dbOrd) ∧
    ∀ r ∈ get_top_products dbOrd, ∃ p ∈ dbOrd.products, r.1 = p.name ∧ r.2 = totalSold dbOrd p.id :=
  top_products_spec dbOrd

theorem monthWindowSum_eq_month (db : DB) (x : Date) (hx : x.Valid)
    (horders : ∀ o ∈ db.orders, o.created_date.Valid) :
    monthWindowSum db (firstOfMonth x) (firstOfMonth (addDays 32 (firstOfMonth x))) =
      monthRevenueOfMonth db x := by
  unfold monthWindowSum monthRevenueOfMonth
  congr 1
  apply List.filter_congr
  intro o ho
  have hv := horders o ho
  have hfx : firstOfMonth x = (⟨x.year, x.month, 1⟩ : Date) := rfl
  rw [hfx]
  rw [show (dateLe ⟨x.year, x.month, 1⟩ o.created_date &&
      dateLt o.created_date (firstOfMonth (addDays 32 ⟨x.year, x.month, 1⟩))) =
      (o.created_date.year == x.year && o.created_date.month == x.month) from
    month_window x.year x.month hx.1 hx.2.1 o.created_date hv]

theorem monthWindowSum_eq_toDate (db : DB) (today : Date) (htoday : today.Valid)
    (horders : ∀ o ∈ db.orders, o.created_date.Valid) :
    monthWindowSum db (firstOfMonth today) (addDays 1 today) = monthRevenueToDate db today := by
  unfold monthWindowSum monthRevenueToDate
  congr 1
  apply List.filter_congr
  intro o ho
  have hv := horders o ho
  rw [show (dateLe (firstOfMonth today) o.created_date &&
      dateLt o.created_date (addDays 1 today)) =
      (o.created_date.year == today.year && o.created_date.month == today.month &&
        dateLe o.created_date today) from
    today_window today htoday o.created_date hv]

set_option maxRecDepth 10000 in
/-- C7 counterexample: as of 2025-03-31 with a single pending order of amount
100 created 2024-10-15, the month buckets are November, December, December,
January, March, March — December and March appear twice, October and February
(both among the trailing 6 calendar months) never appear, and the October
order's revenue lands in no bucket. -/
theorem monthly_revenue_counterexample :
    ((get_monthly_revenue dbC7 ⟨2025, 3, 31⟩).map (fun b => (b.1.year, b.1.month))) =
      [(2024, 11), (2024, 12), (2024, 12), (2025, 1), (2025, 3), (2025, 3)] ∧
    ((get_monthly_revenue dbC7 ⟨2025, 3, 31⟩).map (fun b => b.2)) = [0, 0, 0, 0, 0, 0] ∧
    ¬ ((get_monthly_revenue dbC7 ⟨2025, 3, 31⟩).map (fun b => (b.1.year, b.1.month))).Nodup ∧
    (dbC7.orders.map
      (fun o => (o.created_date.year, o.created_date.month, o.status, o.total_amount))) =
      [(2024, 10, "pending", 100)] := by
  decide

set_option maxRecDepth 10000 in
/-- C7 amended: `get_monthly_revenue` returns exactly 6 buckets; bucket `i`
(for `i = 5 .. 0`) is keyed by the first day of the calendar month containing
`today - 30*i` days; each of the first five sums `total_amount` of the
non-cancelled orders created anywhere in that calendar month, and the last
sums those created in the current month up to and including `today`.  Because
of the 30-day stepping, the six buckets are NOT guaranteed to be the six
distinct trailing calendar months (see the counterexample). -/
theorem monthly_revenue_amended (db : DB) (today : Date) (htoday : today.Valid)
    (horders : ∀ o ∈ db.orders, o.created_date.Valid) :
    get_monthly_revenue db today =
      [(firstOfMonth (subDays 150 today), monthRevenueOfMonth db (subDays 150 today)),
       (firstOfMonth (subDays 120 today), monthRevenueOfMonth db (subDays 120 today)),
       (firstOfMonth (subDays 90 today), monthRevenueOfMonth db (subDays 90 today)),
       (firstOfMonth (subDays 60 today), monthRevenueOfMonth db (subDays 60 today)),
       (firstOfMonth (subDays 30 today), monthRevenueOfMonth db (subDays 30 today)),
       (firstOfMonth today, monthRevenueToDate db today)] := by
  have hb : ∀ k : Nat, monthWindowSum db (firstOfMonth (subDays k today))
      (firstOfMonth (addDays 32 (firstOfMonth (subDays k today)))) =
      monthRevenueOfMonth db (subDays k today) :=
    fun k => monthWindowSum_eq_month db _ (subDays_valid k today htoday) horders
  have h0 : monthWindowSum db (firstOfMonth today) (addDays 1 today) =
      monthRevenueToDate db today :=
    monthWindowSum_eq_toDate db today htoday horders
  have hred : get_monthly_revenue db today =
      [(firstOfMonth (subDays 150 today),
         monthWindowSum db (firstOfMonth (subDays 150 today))
           (firstOfMonth (addDays 32 (firstOfMonth (subDays 150 today))))),
       (firstOfMonth (subDays 120 today),
         monthWindowSum db (firstOfMonth (subDays 120 today))
           (firstOfMonth (addDays 32 (firstOfMonth (subDays 120 today))))),
       (firstOfMonth (subDays 90 today),
         monthWindowSum db (firstOfMonth (subDays 90 today))
           (firstOfMonth (addDays 32 (firstOfMonth (subDays 90 today))))),
       (firstOfMonth (subDays 60 today),
         monthWindowSum db (firstOfMonth (subDays 60 today))
           (firstOfMonth (addDays 32 (firstOfMonth (subDays 60 today))))),
       (firstOfMonth (subDays 30 today),
         monthWindowSum db (firstOfMonth (subDays 30 today))
           (firstOfMonth (addDays 32 (firstOfMonth (subDays 30 today))))),
       (firstOfMonth today, monthWindowSum db (firstOfMonth today) (addDays 1 today))] := rfl
  rw [hred, hb 150, hb 120, hb 90, hb 60, hb 30, h0]

set_option maxRecDepth 10000 in
/-- Witness for C7 (amended) at a concrete store and day. -/
theorem monthly_revenue_amended_witness :
    (Date.Valid ⟨2025, 6, 15⟩) ∧ (∀ o ∈ dbOrd.orders, o.created_date.Valid) ∧
    get_monthly_revenue dbOrd ⟨2025, 6, 15⟩ =
      [(firstOfMonth (subDays 150 ⟨2025, 6, 15⟩), monthRevenueOfMonth dbOrd (subDays 150 ⟨2025, 6, 15⟩)),
       (firstOfMonth (subDays 120 ⟨2025, 6, 15⟩), monthRevenueOfMonth dbOrd (subDays 120 ⟨2025, 6, 15⟩)),
       (firstOfMonth (subDays 90 ⟨2025, 6, 15⟩), monthRevenueOfMonth dbOrd (subDays 90 ⟨2025, 6, 15⟩)),
       (firstOfMonth (subDays 60 ⟨2025, 6, 15⟩), monthRevenueOfMonth dbOrd (subDays 60 ⟨2025, 6, 15⟩)),
       (firstOfMonth (subDays 30 ⟨2025, 6, 15⟩), monthRevenueOfMonth dbOrd (subDays 30 ⟨2025, 6, 15⟩)),
       (firstOfMonth ⟨2025, 6, 15⟩, monthRevenueToDate dbOrd ⟨2025, 6, 15⟩)] :=
  ⟨by decide, by decide, monthly_revenue_amended dbOrd ⟨2025, 6, 15⟩ (by decide) (by decide)⟩
